import Mathlib

/-!
Verification of the request-handling pipeline of the in-memory product
catalog server (src/server.js): the ordered middleware/route stack, the
route-resolution policy (registration order, first match wins), the
handlers, and the error translation.  JavaScript values appearing in
request bodies and stored records are embedded as an explicit sum type;
JS numbers are embedded as exact rationals (the program performs no
floating-point arithmetic on them, only copies, comparisons and one
exact division whose operands are small integers).  The module-level
`products` array is embedded as the five-element array literal that the
route handlers reference (the last assignment in the source file).
-/

namespace ProductApi

/-- JavaScript runtime values that can appear in a request-body field or in
a stored product field: undefined, null, strings, numbers and booleans. -/
inductive JsVal where
  | undef
  | null
  | str (s : String)
  | num (q : Rat)
  | bool (b : Bool)
deriving DecidableEq

/-- JavaScript truthiness of an embedded value (used by `!name`-style tests
in `validateProduct` and the search handler). -/
def JsVal.truthy : JsVal → Bool
  | .undef => false
  | .null => false
  | .str s => s ≠ ""
  | .num q => q ≠ 0
  | .bool b => b

/-- Loose equality with null (`x == null` in JS): true exactly for
undefined and null. -/
def JsVal.isNullish : JsVal → Bool
  | .undef => true
  | .null => true
  | _ => false

/-- Whether the value is a string (`typeof x === 'string'`). -/
def JsVal.isStr : JsVal → Bool
  | .str _ => true
  | _ => false

/-- Whether the value is a number (`typeof x === 'number'`). -/
def JsVal.isNum : JsVal → Bool
  | .num _ => true
  | _ => false

/-- Whether the value is a boolean (`typeof x === 'boolean'`). -/
def JsVal.isBool : JsVal → Bool
  | .bool _ => true
  | _ => false

/-- A product record of the in-memory catalog.  Every code path that
constructs a record sets `id` from integer arithmetic, so `id` is embedded
as an integer; the remaining five fields hold whatever JS value the
request body supplied (the live create handler copies them unvalidated). -/
structure Product where
  id : Int
  name : JsVal
  description : JsVal
  price : JsVal
  category : JsVal
  inStock : JsVal
deriving DecidableEq

/-- The catalog: the module-level `products` array. -/
abbrev Store := List Product

/-- The five-element `products` array literal that the handlers reference. -/
def initialProducts : Store :=
  [ ⟨1, .str "Laptop", .str "15-inch screen", .num (mkRat 1899999 100),
      .str "Electronics", .bool true⟩,
    ⟨2, .str "Mouse", .str "Wireless mouse", .num (mkRat 39999 100),
      .str "Accessories", .bool true⟩,
    ⟨3, .str "Keyboard", .str "Mechanical RGB keyboard", .num (mkRat 129999 100),
      .str "Accessories", .bool true⟩,
    ⟨4, .str "Headphones", .str "Noise cancelling", .num (mkRat 259999 100),
      .str "Electronics", .bool false⟩,
    ⟨5, .str "Monitor", .str "27-inch display", .num (mkRat 349999 100),
      .str "Electronics", .bool true⟩ ]

/-- Numeric value of a decimal digit character. -/
def digitVal (c : Char) : Nat := c.toNat - ('0').toNat

/-- Whether a character is a hexadecimal digit. -/
def isHexDigitCh (c : Char) : Bool :=
  c.isDigit || (('a' ≤ c) && (c ≤ 'f')) || (('A' ≤ c) && (c ≤ 'F'))

/-- Numeric value of a hexadecimal digit character. -/
def hexVal (c : Char) : Nat :=
  if c.isDigit then digitVal c
  else if ('a' ≤ c) && (c ≤ 'f') then c.toNat - ('a').toNat + 10
  else c.toNat - ('A').toNat + 10

/-- Value of a digit list read in the given base, most significant first. -/
def digitsVal (base : Nat) (f : Char → Nat) (ds : List Char) : Nat :=
  ds.foldl (fun a c => a * base + f c) 0

/-- Magnitude part of JS `parseInt` after whitespace and sign: a `0x`/`0X`
marker switches to hexadecimal, otherwise the longest decimal-digit run is
read; no digits means NaN (`none`). -/
def parseIntCore (cs : List Char) : Option Nat :=
  match cs with
  | '0' :: c :: rest =>
      if c = 'x' ∨ c = 'X' then
        let ds := rest.takeWhile isHexDigitCh
        if ds.isEmpty then none else some (digitsVal 16 hexVal ds)
      else
        some (digitsVal 10 digitVal (('0' :: c :: rest).takeWhile Char.isDigit))
  | _ =>
      let ds := cs.takeWhile Char.isDigit
      if ds.isEmpty then none else some (digitsVal 10 digitVal ds)

/-- JS `parseInt(s)` with no radix argument, as the source calls it on path
segments and query parameters: skip leading whitespace, read an optional
sign, then a hexadecimal (`0x`) or decimal digit run; `none` embeds NaN. -/
def jsParseInt (s : String) : Option Int :=
  match s.toList.dropWhile Char.isWhitespace with
  | '+' :: rest => (parseIntCore rest).map (fun n => (n : Int))
  | '-' :: rest => (parseIntCore rest).map (fun n => -(n : Int))
  | cs => (parseIntCore cs).map (fun n => (n : Int))

/-- JS `parseInt` applied to a possibly-absent query parameter
(`parseInt(undefined)` is NaN). -/
def parseIntOpt (o : Option String) : Option Int := o.bind jsParseInt

/-- The `parseInt(x) || d` idiom of the list handler: NaN and 0 (both falsy)
fall back to the default. -/
def jsOrDefault (v : Option Int) (d : Int) : Int :=
  match v with
  | some n => if n = 0 then d else n
  | none => d

/-- Lower-cased character list of a string (JS `toLowerCase`, restricted to
the character-wise lowering the catalog data exercises). -/
def lowerStr (s : String) : List Char := s.toList.map Char.toLower

/-- JS `String.prototype.includes`: the needle occurs contiguously in the
haystack (the empty needle always occurs). -/
def startsWithCh : List Char → List Char → Bool
  | [], _ => true
  | _ :: _, [] => false
  | a :: as, b :: bs => (a = b) && startsWithCh as bs

/-- Whether `needle` is a contiguous run inside `hay`. -/
def includesCh (needle : List Char) : List Char → Bool
  | [] => needle.isEmpty
  | c :: t => startsWithCh needle (c :: t) || includesCh needle t

/-- JS `Array.prototype.slice(start, end)`: negative indices count from the
end of the array, both indices are clamped to the array bounds, and an
empty slice results when the clamped start is not below the clamped end. -/
def jsSlice {α : Type} (l : List α) (start stop : Int) : List α :=
  let len : Int := l.length
  let s := if start < 0 then max (len + start) 0 else min start len
  let e := if stop < 0 then max (len + stop) 0 else min stop len
  (l.drop s.toNat).take (e - s).toNat

/-- Exact value of JS `Math.ceil(n / d)` for integer operands, as the list
handler computes `totalPages` (the operands stay far below the range where
float division would round). -/
def jsCeilDiv (n d : Int) : Int := Rat.ceil (Rat.divInt n d)

/-- Query string of a request, restricted to the parameters the source ever
reads; `none` embeds an absent parameter. -/
structure Query where
  category : Option String := none
  page : Option String := none
  limit : Option String := none
  name : Option String := none
deriving DecidableEq

/-- Parsed JSON request body, restricted to the five schema keys the source
ever reads; `JsVal.undef` embeds an absent key. -/
structure Body where
  name : JsVal := .undef
  description : JsVal := .undef
  price : JsVal := .undef
  category : JsVal := .undef
  inStock : JsVal := .undef
deriving DecidableEq

/-- HTTP methods used by the registered routes. -/
inductive Method where
  | GET
  | POST
  | PUT
  | DELETE
deriving DecidableEq

/-- An inbound request: method, decoded path segments, the `x-api-key`
header if present, query parameters and parsed body. -/
structure Request where
  method : Method
  path : List String
  apiKey : Option String := none
  query : Query := {}
  body : Body := {}
deriving DecidableEq

/-- A raised JS `Error`: its `name`, `message`, and the `statusCode` field
the typed error classes set (`none` for untyped errors). -/
structure JsError where
  name : String
  message : String
  statusCode : Option Nat
deriving DecidableEq

/-- Constructor of `NotFoundError` (statusCode 404). -/
def notFoundError (msg : String) : JsError := ⟨"NotFoundError", msg, some 404⟩

/-- Constructor of `ValidationError` (statusCode 400). -/
def validationError (msg : String) : JsError := ⟨"ValidationError", msg, some 400⟩

/-- Constructor of `UnauthorizedError` (statusCode 401). -/
def unauthorizedError (msg : String) : JsError := ⟨"UnauthorizedError", msg, some 401⟩

/-- A runtime `TypeError`, e.g. calling `toLowerCase` on a non-string field
(no `statusCode`, so the translator maps it to 500). -/
def typeErrorLower : JsError := ⟨"TypeError", "toLowerCase is not a function", none⟩

/-- JSON response bodies the server can send, one constructor per object
shape appearing in the source. -/
inductive RespBody where
  | errorEnvelope (errorType message : String)
  | errField (msg : String)
  | messageOnly (msg : String)
  | product (p : Product)
  | productList (ps : List Product)
  | listPage (page limit totalPages : Int) (totalItems : Nat) (products : List Product)
  | searchResult (count : Nat) (results : List Product)
  | deleteResult (msg : String) (deleted : List Product)
  | statsResult (totalProducts : Nat) (countByCategory : List (String × Nat))
deriving DecidableEq

/-- An HTTP response: status code and JSON body. -/
structure Response where
  status : Nat
  body : RespBody
deriving DecidableEq

/-- The terminal error-handling middleware: map a raised error to a JSON
envelope with the error's `statusCode`, defaulting to 500. -/
def errorTranslator (e : JsError) : Response :=
  ⟨e.statusCode.getD 500,
   .errorEnvelope (if e.name = "" then "Error" else e.name)
     (if e.message = "" then "Internal Server Error" else e.message)⟩

/-- Result of running one route handler: a sent response, a raised error
(both carrying the store as the handler left it), or no response at all
(the handler with an empty body). -/
inductive HandlerResult where
  | ok (r : Response) (s : Store)
  | err (e : JsError) (s : Store)
  | noResponse (s : Store)
deriving DecidableEq

/-- The store as a handler left it. -/
def HandlerResult.store : HandlerResult → Store
  | .ok _ s => s
  | .err _ s => s
  | .noResponse s => s

/-- Lower-cased characters of a product field known to be a string. -/
def fieldLower : JsVal → List Char
  | .str s => lowerStr s
  | _ => []

/-- Live `GET /api/products` handler: the category filter runs only when
`req.query.category` is truthy (present and non-empty — an empty string is
falsy and skips the filter), then pagination with `parseInt(...) || 1` /
`parseInt(...) || 2`, `Array.slice`, and `Math.ceil` for the page count.
Calling `toLowerCase` on a non-string stored category raises a
`TypeError`. -/
def listHandler (q : Query) (store : Store) : HandlerResult :=
  match q.category with
  | some c =>
      if c = "" then .ok (listPageResponse q store) store
      else if store.all (fun p => p.category.isStr) then
        let results := store.filter (fun p => fieldLower p.category = lowerStr c)
        .ok (listPageResponse q results) store
      else .err typeErrorLower store
  | none => .ok (listPageResponse q store) store
where
  /-- Pagination step shared by both branches of the category match. -/
  listPageResponse (q : Query) (results : List Product) : Response :=
    let page := jsOrDefault (parseIntOpt q.page) 1
    let limit := jsOrDefault (parseIntOpt q.limit) 2
    let start := (page - 1) * limit
    let stop := start + limit
    ⟨200, .listPage page limit (jsCeilDiv results.length limit) results.length
        (jsSlice results start stop)⟩

/-- Live `GET /api/products/search` handler: a falsy `name` parameter
(absent or empty) raises `ValidationError`; otherwise a case-insensitive
substring match on product names, raising `NotFoundError` on zero hits. -/
def searchHandler (q : Query) (store : Store) : HandlerResult :=
  match q.name with
  | none => .err (validationError ("Please provide a search keyword")) store
  | some n =>
      if n = "" then .err (validationError ("Please provide a search keyword")) store
      else if store.all (fun p => p.name.isStr) then
        let results := store.filter (fun p => includesCh (lowerStr n) (fieldLower p.name))
        if results.isEmpty then .err (notFoundError ("No products match your search")) store
        else .ok ⟨200, .searchResult results.length results⟩ store
      else .err typeErrorLower store

/-- Live `GET /api/products/:id` handler: `find` with `parseInt` of the
path segment, direct 404 JSON on no match. -/
def getByIdHandler (seg : String) (store : Store) : HandlerResult :=
  match jsParseInt seg with
  | none => .ok ⟨404, .messageOnly ("Product not found")⟩ store
  | some n =>
      match store.find? (fun p => p.id = n) with
      | none => .ok ⟨404, .messageOnly ("Product not found")⟩ store
      | some p => .ok ⟨200, .product p⟩ store

/-- The id the live create handler assigns:
`products.length ? products[products.length - 1].id + 1 : 1`. -/
def nextId (store : Store) : Int :=
  match store.getLast? with
  | some p => p.id + 1
  | none => 1

/-- Live `POST /api/products` handler (the first registration, the one with
no middleware): the new id is one more than the last record's id (1 on an
empty catalog), the body fields are copied unvalidated, the record is
pushed and echoed with status 201. -/
def createHandler (b : Body) (store : Store) : HandlerResult :=
  let np : Product := ⟨nextId store, b.name, b.description, b.price, b.category, b.inStock⟩
  .ok ⟨201, .product np⟩ (store ++ [np])

/-- Overlay of the `??` partial update of the live PUT handler: a nullish
(absent or null) body field keeps the prior value; `id` is never touched. -/
def overlay (p : Product) (b : Body) : Product :=
  { id := p.id
    name := if b.name.isNullish then p.name else b.name
    description := if b.description.isNullish then p.description else b.description
    price := if b.price.isNullish then p.price else b.price
    category := if b.category.isNullish then p.category else b.category
    inStock := if b.inStock.isNullish then p.inStock else b.inStock }

/-- Replace the first list element satisfying the test (the in-place
mutation of the object returned by `Array.prototype.find`). -/
def replaceFirst (f : Product → Bool) (p' : Product) : Store → Store
  | [] => []
  | p :: t => if f p then p' :: t else p :: replaceFirst f p' t

/-- Live `PUT /api/products/:id` handler: `find` by parsed id, direct 404
JSON on no match, otherwise field-wise `??` overlay mutating the found
record, echoed with status 200. -/
def updateHandler (seg : String) (b : Body) (store : Store) : HandlerResult :=
  match jsParseInt seg with
  | none => .ok ⟨404, .messageOnly ("Product not found")⟩ store
  | some n =>
      match store.find? (fun p => p.id = n) with
      | none => .ok ⟨404, .messageOnly ("Product not found")⟩ store
      | some p =>
          .ok ⟨200, .product (overlay p b)⟩
            (replaceFirst (fun q => q.id = n) (overlay p b) store)

/-- Remove the first list element satisfying the test, returning it and the
remaining list (the `findIndex` + `splice(idx, 1)` pair). -/
def removeFirst (f : Product → Bool) : Store → Option (Product × Store)
  | [] => none
  | p :: t =>
      if f p then some (p, t)
      else (removeFirst f t).map (fun r => (r.1, p :: r.2))

/-- Live `DELETE /api/products/:id` handler: `findIndex` by parsed id,
direct 404 JSON on no match, otherwise `splice` and a confirmation body
holding the one-element spliced array. -/
def deleteHandler (seg : String) (store : Store) : HandlerResult :=
  match jsParseInt seg with
  | none => .ok ⟨404, .messageOnly ("Product not found")⟩ store
  | some n =>
      match removeFirst (fun p => p.id = n) store with
      | none => .ok ⟨404, .messageOnly ("Product not found")⟩ store
      | some r => .ok ⟨200, .deleteResult ("Product deleted successfully") [r.1]⟩ r.2

/-- JS property-key coercion of a field value (object keys are strings). -/
def jsKeyString : JsVal → String
  | .undef => "undefined"
  | .null => "null"
  | .str s => s
  | .bool b => if b then "true" else "false"
  | .num q => if q.den = 1 then toString q.num else toString q

/-- One step of the stats reducer `acc[p.category] = (acc[p.category] || 0) + 1`
on an association list standing for the accumulator object: bump the first
binding of the key, or append a fresh binding with count 1. -/
def bump (acc : List (String × Nat)) (k : String) : List (String × Nat) :=
  match acc with
  | [] => [(k, 1)]
  | (k', n) :: t => if k' = k then (k', n + 1) :: t else (k', n) :: bump t k

/-- The category-count object the stats reducer builds over the catalog. -/
def statsOf (store : Store) : List (String × Nat) :=
  store.foldl (fun acc p => bump acc (jsKeyString p.category)) []

/-- The `GET /api/products/stats` handler (dead code behind the earlier
`GET /api/products/:id` registration): total count plus per-category
counts over the whole catalog. -/
def statsHandler (store : Store) : HandlerResult :=
  .ok ⟨200, .statsResult store.length (statsOf store)⟩ store

/-- Dead second `GET /api/products/:id` registration: same lookup but a 404
body of shape `{error: ...}`. -/
def publicGetById (seg : String) (store : Store) : HandlerResult :=
  match jsParseInt seg with
  | none => .ok ⟨404, .errField ("Product not found")⟩ store
  | some n =>
      match store.find? (fun p => p.id = n) with
      | none => .ok ⟨404, .errField ("Product not found")⟩ store
      | some p => .ok ⟨200, .product p⟩ store

/-- Dead third `POST /api/products` registration: id `products.length + 1`
and an object-spread copy of the body over the schema keys. -/
def createV2 (b : Body) (store : Store) : HandlerResult :=
  let np : Product :=
    ⟨(store.length : Int) + 1, b.name, b.description, b.price, b.category, b.inStock⟩
  .ok ⟨201, .product np⟩ (store ++ [np])

/-- Overlay of the dead second PUT registration's `Object.assign`: only a
key absent from the body keeps the prior value (a supplied null is copied). -/
def overlayAssign (p : Product) (b : Body) : Product :=
  { id := p.id
    name := if b.name = .undef then p.name else b.name
    description := if b.description = .undef then p.description else b.description
    price := if b.price = .undef then p.price else b.price
    category := if b.category = .undef then p.category else b.category
    inStock := if b.inStock = .undef then p.inStock else b.inStock }

/-- Dead second `PUT /api/products/:id` registration. -/
def updateV2 (seg : String) (b : Body) (store : Store) : HandlerResult :=
  match jsParseInt seg with
  | none => .ok ⟨404, .errField ("Product not found")⟩ store
  | some n =>
      match store.find? (fun p => p.id = n) with
      | none => .ok ⟨404, .errField ("Product not found")⟩ store
      | some p =>
          .ok ⟨200, .product (overlayAssign p b)⟩
            (replaceFirst (fun q => q.id = n) (overlayAssign p b) store)

/-- Dead second `DELETE /api/products/:id` registration. -/
def deleteV2 (seg : String) (store : Store) : HandlerResult :=
  match jsParseInt seg with
  | none => .ok ⟨404, .errField ("Product not found")⟩ store
  | some n =>
      match removeFirst (fun p => p.id = n) store with
      | none => .ok ⟨404, .errField ("Product not found")⟩ store
      | some r => .ok ⟨200, .deleteResult ("Product deleted") [r.1]⟩ r.2

/-- Result of one `app.use`-style middleware: fall through to the next
layer, send a response directly, or pass an error to `next`. -/
inductive MidResult where
  | pass
  | respond (r : Response)
  | raise (e : JsError)
deriving DecidableEq

/-- A middleware function. -/
def Mid : Type := Store → Request → MidResult

/-- A route handler as wired into the stack. -/
def Handler : Type := Store → Request → HandlerResult

/-- The configured API secret (`VALID_API_KEY`). -/
def validApiKey : String := "12345"

/-- The `authenticate` middleware: pass iff the `x-api-key` header is
present, truthy and equal to the secret; otherwise respond 401 directly. -/
def authenticateMid : Mid := fun _ req =>
  match req.apiKey with
  | some k =>
      if (k ≠ "") && (k = validApiKey) then .pass
      else .respond ⟨401, .errField ("Unauthorized: invalid or missing API key")⟩
  | none => .respond ⟨401, .errField ("Unauthorized: invalid or missing API key")⟩

/-- The `validateProduct` middleware: presence/non-null checks on the five
schema fields (first failing rule responds 400 directly), then the number
and boolean type checks. -/
def validateMid : Mid := fun _ req =>
  let b := req.body
  if (!b.name.truthy) || (!b.description.truthy) || b.price.isNullish
      || (!b.category.truthy) || b.inStock.isNullish then
    .respond ⟨400, .errField ("All product fields are required")⟩
  else if !b.price.isNum then
    .respond ⟨400, .errField ("Price must be a number")⟩
  else if !b.inStock.isBool then
    .respond ⟨400, .errField ("inStock must be boolean")⟩
  else .pass

/-- A middleware that only observes the request (logger, body parser). -/
def passMid : Mid := fun _ _ => .pass

/-- The terminal catch-all middleware raising `NotFoundError` with message
Route not found. -/
def notFoundMid : Mid := fun _ _ => .raise (notFoundError ("Route not found"))

/-- A path pattern of a registration: all literal segments, or literal
segments followed by one `:id` parameter segment. -/
inductive Pattern where
  | exact (segs : List String)
  | param (pre : List String)

/-- Whether a pattern matches a (nonempty-segment, decoded) request path. -/
def patMatches (pat : Pattern) (path : List String) : Bool :=
  match pat with
  | .exact segs => path = segs
  | .param pre => (!path.isEmpty) && (path.dropLast = pre)

/-- One entry of the application's middleware/route stack, in registration
order: either an `app.use` middleware or a route with its own chain. -/
inductive Layer where
  | mid (m : Mid)
  | route (mth : Method) (pat : Pattern) (chain : List Mid) (h : Handler)

/-- The `:id` (or last) segment of the request path, as Express binds
`req.params.id` for the `param` patterns. -/
def lastSeg (req : Request) : String := req.path.getLast?.getD ""

/-- Outcome of the whole pipeline on one request: a response was sent, or
no middleware ever responded (the empty-bodied handler), together with the
final state of the store. -/
inductive Outcome where
  | res (r : Response) (s : Store)
  | hung (s : Store)
deriving DecidableEq

/-- Run a route's own middleware chain then its handler; a raised error
goes straight to the error translator. -/
def runChain (chain : List Mid) (h : Handler) (s : Store) (req : Request) : Outcome :=
  match chain with
  | [] =>
      match h s req with
      | .ok r s' => .res r s'
      | .err e s' => .res (errorTranslator e) s'
      | .noResponse s' => .hung s'
  | m :: ms =>
      match m s req with
      | .pass => runChain ms h s req
      | .respond r => .res r s
      | .raise e => .res (errorTranslator e) s

/-- Walk the stack in registration order from layer index `i`: a route
fires iff its method matches exactly and its pattern matches the path, and
the walk stops at the first firing route or at the first middleware that
responds or raises; the returned index is the absolute stack index of the
route that fired, if any. -/
def dispatchAux : List Layer → Store → Request → Nat → Outcome × Option Nat
  | [], s, _, _ => (.hung s, none)
  | .mid m :: rest, s, req, i =>
      match m s req with
      | .pass => dispatchAux rest s req (i + 1)
      | .respond r => (.res r s, none)
      | .raise e => (.res (errorTranslator e) s, none)
  | .route mth pat chain h :: rest, s, req, i =>
      if (req.method = mth) && patMatches pat req.path then
        (runChain chain h s req, some i)
      else dispatchAux rest s req (i + 1)

/-- The application's stack exactly as registered in src/server.js, top to
bottom: two body parsers and the logger; the seven live routes; the global
`authenticate`; the five shadowed duplicate routes plus the empty-bodied
validated POST; and the terminal 404 middleware.  The error-translator
middleware is applied wherever an error is passed on. -/
def appLayers : List Layer :=
  [ .mid passMid,
    .mid passMid,
    .mid passMid,
    .route .GET (.exact ["api", "products"]) [] (fun s req => listHandler req.query s),
    .route .GET (.exact ["api", "products", "search"]) []
      (fun s req => searchHandler req.query s),
    .route .GET (.param ["api", "products"]) [] (fun s req => getByIdHandler (lastSeg req) s),
    .route .POST (.exact ["api", "products"]) [] (fun s req => createHandler req.body s),
    .route .PUT (.param ["api", "products"]) []
      (fun s req => updateHandler (lastSeg req) req.body s),
    .route .DELETE (.param ["api", "products"]) [] (fun s req => deleteHandler (lastSeg req) s),
    .route .GET (.exact ["api", "products", "stats"]) [] (fun s _ => statsHandler s),
    .mid authenticateMid,
    .route .POST (.exact ["api", "products"]) [validateMid] (fun s _ => .noResponse s),
    .route .GET (.exact ["api", "products"]) [] (fun s _ => .ok ⟨200, .productList s⟩ s),
    .route .GET (.param ["api", "products"]) [] (fun s req => publicGetById (lastSeg req) s),
    .route .POST (.exact ["api", "products"]) [authenticateMid, validateMid]
      (fun s req => createV2 req.body s),
    .route .PUT (.param ["api", "products"]) [authenticateMid, validateMid]
      (fun s req => updateV2 (lastSeg req) req.body s),
    .route .DELETE (.param ["api", "products"]) [authenticateMid]
      (fun s req => deleteV2 (lastSeg req) s),
    .mid notFoundMid ]

/-- Process one request against the whole application stack. -/
def dispatch (s : Store) (req : Request) : Outcome × Option Nat :=
  dispatchAux appLayers s req 0

/-- Whether a stack entry is a route whose method and pattern match the
request (a middleware entry never counts as a match). -/
def matchesRoute (l : Layer) (req : Request) : Bool :=
  match l with
  | .mid _ => false
  | .route mth pat _ _ => (req.method = mth) && patMatches pat req.path

/-- Absolute stack indices of the registrations matching a request, in
registration order, starting the count at `i`. -/
def matchingIndices : List Layer → Request → Nat → List Nat
  | [], _, _ => []
  | l :: rest, req, i =>
      if matchesRoute l req then i :: matchingIndices rest req (i + 1)
      else matchingIndices rest req (i + 1)

/-- The walk a request takes when no registration matches it: only the
middleware layers act, in order. -/
def midFold : List Layer → Store → Request → Outcome
  | [], s, _ => .hung s
  | .mid m :: rest, s, req =>
      match m s req with
      | .pass => midFold rest s req
      | .respond r => .res r s
      | .raise e => .res (errorTranslator e) s
  | .route _ _ _ _ :: rest, s, req => midFold rest s req

/-- A store mutation issued through the live handlers: a create with a
request body, or a delete or partial update addressed by a raw `:id` path
segment. -/
inductive Op where
  | create (b : Body)
  | del (seg : String)
  | update (seg : String) (b : Body)

/-- Apply one operation through the corresponding live handler, returning
the new store and the id assigned when the operation was a create. -/
def applyOp (s : Store) (o : Op) : Store × Option Int :=
  match o with
  | .create b => ((createHandler b s).store, some (nextId s))
  | .del seg => ((deleteHandler seg s).store, none)
  | .update seg b => ((updateHandler seg b s).store, none)

/-- Run a sequence of operations, collecting the assigned ids in order. -/
def runOps (s : Store) : List Op → Store × List Int
  | [] => (s, [])
  | o :: t =>
      let r := applyOp s o
      let rest := runOps r.1 t
      (rest.1, r.2.toList ++ rest.2)

/-- The ids of the catalog records, in storage order. -/
def storeIds (s : Store) : List Int := s.map Product.id

/-- Ceiling of the exact division of a count by a nonzero integer, written
with integer arithmetic only, as the specification's
`totalPages = ceil(totalItems / limit)`. -/
def intCeilDiv (n : Nat) (d : Int) : Int :=
  if 0 < d then ((n + d.toNat - 1) / d.toNat : Nat)
  else -((n / d.natAbs : Nat) : Int)

/-- The claim's reading of the list-handler coercion: the parameter is
coerced to an integer, and only a non-numeric or missing value falls back
to the default. -/
def claimToInt (o : Option String) (d : Int) : Int :=
  match parseIntOpt o with
  | some n => n
  | none => d

/-- The amended coercion: a value parsing to 0 falls back to the default as
well (the code uses a falsy-fallback after `parseInt`). -/
def amendedToInt (o : Option String) (d : Int) : Int :=
  if parseIntOpt o = none ∨ parseIntOpt o = some 0 then d
  else (parseIntOpt o).getD d

/-- The result set exactly as claim C7 states it: on any supplied
`category` parameter, the records whose category equals it
case-insensitively. -/
def filteredSet (q : Query) (store : Store) : List Product :=
  match q.category with
  | some c => store.filter (fun p => fieldLower p.category = lowerStr c)
  | none => store

/-- The result set as amended: only a truthy (present and non-empty)
`category` parameter filters; an empty one is falsy and leaves the whole
catalog. -/
def truthyFilteredSet (q : Query) (store : Store) : List Product :=
  match q.category with
  | some c =>
      if c = "" then store
      else store.filter (fun p => fieldLower p.category = lowerStr c)
  | none => store

/-- The `GET /products` response exactly as claim C7 states it: coerced
page and limit with default fallback on non-numeric or missing values
only, `totalPages = ceil(totalItems / limit)`, and the slice
`[(page-1)*limit, page*limit)` of the filtered set. -/
def c7ClaimResponse (q : Query) (store : Store) : Response :=
  let filtered := filteredSet q store
  let page := claimToInt q.page 1
  let limit := claimToInt q.limit 2
  ⟨200, .listPage page limit (intCeilDiv filtered.length limit) filtered.length
      (jsSlice filtered ((page - 1) * limit) (page * limit))⟩

/-- The `GET /products` response as amended: identical, except that a page
or limit parameter parsing to 0 also falls back to its default, and only a
truthy (non-empty) category parameter filters. -/
def c7AmendedResponse (q : Query) (store : Store) : Response :=
  let filtered := truthyFilteredSet q store
  let page := amendedToInt q.page 1
  let limit := amendedToInt q.limit 2
  ⟨200, .listPage page limit (intCeilDiv filtered.length limit) filtered.length
      (jsSlice filtered ((page - 1) * limit) (page * limit))⟩

/-- The search matches of a keyword: records whose name contains it as a
case-insensitive substring. -/
def searchMatches (key : String) (store : Store) : List Product :=
  store.filter (fun p => includesCh (lowerStr key) (fieldLower p.name))

/-- The search result exactly as claim C8 states it: `ValidationError` only
when the `name` parameter is absent, otherwise the substring matches, with
`NotFoundError` on zero matches. -/
def c8ClaimResult (q : Query) (store : Store) : HandlerResult :=
  match q.name with
  | none => .err (validationError ("Please provide a search keyword")) store
  | some key =>
      let rs := searchMatches key store
      if rs.length = 0 then .err (notFoundError ("No products match your search")) store
      else .ok ⟨200, .searchResult rs.length rs⟩ store

/-- The search result as amended: an absent or empty `name` parameter (both
falsy) raises the `ValidationError`; the success count is the number of
matching records. -/
def c8AmendedResult (q : Query) (store : Store) : HandlerResult :=
  if q.name.getD "" = "" then
    .err (validationError ("Please provide a search keyword")) store
  else
    let key := q.name.getD ""
    let rs := searchMatches key store
    if rs.length = 0 then .err (notFoundError ("No products match your search")) store
    else
      .ok ⟨200, .searchResult
        (store.countP (fun p => includesCh (lowerStr key) (fieldLower p.name))) rs⟩ store

/-- The decimal-digit-run parse claim C10 ascribes to the get-by-id route:
the longest run of decimal digits starting at the first character, with no
whitespace skipping, no sign and no hexadecimal form. -/
def decDigitsParse (s : String) : Option Int :=
  let ds := s.toList.takeWhile Char.isDigit
  if ds.isEmpty then none else some ((digitsVal 10 digitVal ds : Nat) : Int)

/-- The get-by-id result exactly as claim C10 states it: lookup by the
decimal-digit-run value of the segment, 404 otherwise. -/
def c10ClaimResult (seg : String) (store : Store) : HandlerResult :=
  match decDigitsParse seg with
  | none => .ok ⟨404, .messageOnly ("Product not found")⟩ store
  | some n =>
      match store.find? (fun p => p.id = n) with
      | none => .ok ⟨404, .messageOnly ("Product not found")⟩ store
      | some p => .ok ⟨200, .product p⟩ store

/-- A well-formed create payload used in concrete runs. -/
def penBody : Body :=
  { name := .str "Pen", description := .str "Blue ballpoint", price := .num 10,
    category := .str "Stationery", inStock := .bool true }

/-- The record the live create handler builds from `penBody` on the initial
catalog. -/
def penProduct : Product :=
  ⟨6, .str "Pen", .str "Blue ballpoint", .num 10, .str "Stationery", .bool true⟩

/-- The record the live create handler builds from an empty body on the
initial catalog: id 6 and every other field undefined. -/
def undefProduct : Product := ⟨6, .undef, .undef, .undef, .undef, .undef⟩

/-- The operation sequence that reuses an id: create (assigns 6), delete
record 6, create again (assigns 6 again). -/
def reuseOps : List Op := [.create penBody, .del ("6"), .create penBody]

/-- C1.  The claim says every request without the right `x-api-key` gets a
401 and never mutates the store.  The code registers `app.use(authenticate)`
only after the live routes, so the first-registered `POST /api/products`
handler (stack index 6) runs for a keyless request: it appends the record
and responds 201 — even though `authenticate` itself, shown in the second
conjunct, would have rejected the very same request. -/
theorem c1_auth_bypass_bug :
    dispatch initialProducts ⟨.POST, ["api", "products"], none, {}, penBody⟩ =
      (.res ⟨201, .product penProduct⟩ (initialProducts ++ [penProduct]), some 6) ∧
    authenticateMid initialProducts ⟨.POST, ["api", "products"], none, {}, penBody⟩ =
      .respond ⟨401, .errField ("Unauthorized: invalid or missing API key")⟩ := by
  constructor
  · decide
  · decide

/-- C4.  The claim says every create is validated before the store is
touched.  The live first-registered `POST /api/products` route has no
validation middleware: an all-empty body is stored as a record with id 6
and every schema field undefined, answered 201 — even though
`validateProduct` itself, shown in the second conjunct, rejects that same
request with the 400 all-fields-required response. -/
theorem c4_validation_bypass_bug :
    dispatch initialProducts ⟨.POST, ["api", "products"], some validApiKey, {}, {}⟩ =
      (.res ⟨201, .product undefProduct⟩ (initialProducts ++ [undefProduct]), some 6) ∧
    validateMid initialProducts ⟨.POST, ["api", "products"], some validApiKey, {}, {}⟩ =
      .respond ⟨400, .errField ("All product fields are required")⟩ := by
  constructor
  · decide
  · decide

/-- Association-list lookup at a cons cell, with a propositional test. -/
theorem lookup_cons (a k : String) (n : Nat) (t : List (String × Nat)) :
    List.lookup a ((k, n) :: t) = if a = k then some n else List.lookup a t := by
  by_cases h : a = k
  · simp [List.lookup, h]
  · have hb : (a == k) = false := by simpa using h
    simp [List.lookup, hb, h]

/-- One bump step moves exactly the looked-up key's count, by one. -/
theorem lookup_bump (acc : List (String × Nat)) (k c : String) :
    List.lookup c (bump acc k) =
      if c = k then some ((List.lookup c acc).getD 0 + 1) else List.lookup c acc := by
  induction acc with
  | nil => by_cases h : c = k <;> simp [bump, lookup_cons, h]
  | cons hd t ih =>
      obtain ⟨k', n⟩ := hd
      simp only [bump]
      by_cases h1 : k' = k
      · rw [if_pos h1, lookup_cons, lookup_cons]
        subst h1
        by_cases h2 : c = k'
        · simp [h2]
        · simp [h2]
      · rw [if_neg h1, lookup_cons, lookup_cons, ih]
        by_cases h2 : c = k'
        · have h3 : ¬ c = k := fun hh => h1 (h2.symm.trans hh)
          simp [h2, h3, h1]
        · simp [h2]

/-- The stats fold counts per key: looking up a key in the folded
accumulator adds the number of records with that category key. -/
theorem lookup_statsFold (ps : List Product) (acc : List (String × Nat)) (c : String) :
    List.lookup c (List.foldl (fun a p => bump a (jsKeyString p.category)) acc ps) =
      (if ps.countP (fun p => jsKeyString p.category == c) = 0 then List.lookup c acc
       else some ((List.lookup c acc).getD 0 +
         ps.countP (fun p => jsKeyString p.category == c))) := by
  induction ps generalizing acc with
  | nil => simp
  | cons p t ih =>
      simp only [List.foldl_cons, List.countP_cons]
      rw [ih, lookup_bump]
      by_cases h : jsKeyString p.category = c
      · subst h
        simp only [beq_self_eq_true, if_true, if_pos rfl]
        by_cases h0 : t.countP (fun q => jsKeyString q.category == jsKeyString p.category) = 0
        · simp [h0]
        · simp [h0]
          omega
      · have hb : (jsKeyString p.category == c) = false := by
          simpa using h
        have hc : ¬ c = jsKeyString p.category := fun hcc => h hcc.symm
        simp [hb, hc]

/-- C3.  The claim says `GET /products/stats` answers the catalog totals,
but the route is registered after `GET /products/:id`, which captures the
path (`parseInt("stats")` is NaN) and responds 404 at stack index 5 — the
stats registration is dead code.  The second conjunct evaluates the dead
handler itself, and the third proves the per-category count it would
compute correct over every catalog. -/
theorem c3_stats_shadowed_bug :
    dispatch initialProducts ⟨.GET, ["api", "products", "stats"], some validApiKey, {}, {}⟩ =
      (.res ⟨404, .messageOnly ("Product not found")⟩ initialProducts, some 5) ∧
    statsHandler initialProducts =
      .ok ⟨200, .statsResult 5 [("Electronics", 3), ("Accessories", 2)]⟩ initialProducts ∧
    ∀ (store : Store) (c : String),
      List.lookup c (statsOf store) =
        (if store.countP (fun p => jsKeyString p.category == c) = 0 then none
         else some (store.countP (fun p => jsKeyString p.category == c))) := by
  refine ⟨by decide, by decide, fun store c => ?_⟩
  have h := lookup_statsFold store [] c
  simpa [statsOf, List.lookup] using h

/-- C6 counterexample.  A request that matches no registered route (second
conjunct) but carries no API key is answered 401 by `authenticate`, not by
the terminal not-found handler: the claimed 404 envelope (third conjunct)
is not the response. -/
theorem c6_counterexample :
    dispatch initialProducts ⟨.GET, ["api", "missing"], none, {}, {}⟩ =
      (.res ⟨401, .errField ("Unauthorized: invalid or missing API key")⟩
        initialProducts, none) ∧
    matchingIndices appLayers ⟨.GET, ["api", "missing"], none, {}, {}⟩ 0 = [] ∧
    (⟨401, .errField ("Unauthorized: invalid or missing API key")⟩ : Response) ≠
      ⟨404, .errorEnvelope ("NotFoundError") ("Route not found")⟩ := by
  refine ⟨by decide, by decide, by decide⟩

/-- C5 counterexample.  Claim C5 says every assigned id is strictly greater
than every previously assigned id (never reused after deletion).  Running
create, delete 6, create on the initial catalog assigns [6, 6]: the second
assignment repeats the first. -/
theorem c5_counterexample :
    (runOps initialProducts reuseOps).2 = [6, 6] ∧
    ¬ List.Pairwise (fun a b => a < b) ((runOps initialProducts reuseOps).2) := by
  constructor
  · decide
  · decide

/-- C7 counterexample.  For `page=0` the claim coerces the numeric value 0
and predicts a response with page 0, but `parseInt(...) || 1` treats the
parsed 0 as falsy: the code responds with page 1 and the first slice. -/
theorem c7_counterexample :
    listHandler { page := some ("0") } initialProducts =
      .ok ⟨200, .listPage 1 2 3 5 (initialProducts.take 2)⟩ initialProducts ∧
    c7ClaimResponse { page := some ("0") } initialProducts ≠
      ⟨200, .listPage 1 2 3 5 (initialProducts.take 2)⟩ := by
  constructor
  · decide
  · decide

/-- C8 counterexample.  The claim raises `ValidationError` only for an
absent `name` parameter and otherwise substring-matches, so for `name=`
(empty string, matching every record) it predicts a success with count 5;
the code's falsy test `!name` rejects the empty string with the
`ValidationError` instead. -/
theorem c8_counterexample :
    searchHandler { name := some ("") } initialProducts =
      .err (validationError ("Please provide a search keyword")) initialProducts ∧
    c8ClaimResult { name := some ("") } initialProducts =
      .ok ⟨200, .searchResult 5 initialProducts⟩ initialProducts ∧
    searchHandler { name := some ("") } initialProducts ≠
      c8ClaimResult { name := some ("") } initialProducts := by
  refine ⟨by decide, by decide, by decide⟩

/-- When the dispatcher reports that a registration fired, that index heads
the list of matching registrations. -/
theorem dispatchAux_first_match :
    ∀ (layers : List Layer) (s : Store) (req : Request) (i : Nat) (o : Outcome) (j : Nat),
      dispatchAux layers s req i = (o, some j) →
      (matchingIndices layers req i).head? = some j := by
  intro layers
  induction layers with
  | nil => intro s req i o j h; simp [dispatchAux] at h
  | cons l rest ih =>
      intro s req i o j h
      cases l with
      | mid m =>
          rw [dispatchAux] at h
          cases hm : m s req with
          | pass =>
              rw [hm] at h
              simpa [matchingIndices, matchesRoute] using ih s req (i + 1) o j h
          | respond r => rw [hm] at h; simp at h
          | raise e => rw [hm] at h; simp at h
      | route mth pat chain hnd =>
          rw [dispatchAux] at h
          by_cases hg : ((req.method = mth) && patMatches pat req.path) = true
          · rw [if_pos hg] at h
            have hj : i = j := by
              have := congrArg Prod.snd h
              simpa using this
            subst hj
            simp [matchingIndices, matchesRoute, hg]
          · rw [if_neg hg] at h
            have hne : matchesRoute (.route mth pat chain hnd) req = false := by
              simpa [matchesRoute] using hg
            simpa [matchingIndices, hne] using ih s req (i + 1) o j h

/-- Every matching index counts from the starting layer position. -/
theorem matchingIndices_ge :
    ∀ (layers : List Layer) (req : Request) (i k : Nat),
      k ∈ matchingIndices layers req i → i ≤ k := by
  intro layers
  induction layers with
  | nil => intro req i k h; simp [matchingIndices] at h
  | cons l rest ih =>
      intro req i k h
      rw [matchingIndices] at h
      by_cases hg : matchesRoute l req = true
      · rw [if_pos hg] at h
        rcases List.mem_cons.mp h with h1 | h1
        · omega
        · have := ih req (i + 1) k h1; omega
      · rw [if_neg hg] at h
        have := ih req (i + 1) k h; omega

/-- The head of the matching-registration list is its minimum: matching
indices are produced in increasing registration order. -/
theorem matchingIndices_head_min :
    ∀ (layers : List Layer) (req : Request) (i j : Nat),
      (matchingIndices layers req i).head? = some j →
      j ∈ matchingIndices layers req i ∧ ∀ k ∈ matchingIndices layers req i, j ≤ k := by
  intro layers
  induction layers with
  | nil => intro req i j h; simp [matchingIndices] at h
  | cons l rest ih =>
      intro req i j h
      rw [matchingIndices] at h ⊢
      by_cases hg : matchesRoute l req = true
      · rw [if_pos hg] at h ⊢
        have hj : i = j := by simpa using h
        refine ⟨?_, ?_⟩
        · rw [← hj]; exact List.mem_cons_self _ _
        · intro k hk
          rcases List.mem_cons.mp hk with h1 | h1
          · omega
          · have := matchingIndices_ge rest req (i + 1) k h1; omega
      · rw [if_neg hg] at h ⊢
        exact ih req (i + 1) j h

/-- Only the seven live registrations (stack indices 3 through 9) can head
the matching list of this application's stack: every request matching one
of the later duplicate registrations also matches an earlier live one. -/
theorem live_routes_only (req : Request) (j : Nat)
    (h : (matchingIndices appLayers req 0).head? = some j) :
    j ∈ ([3, 4, 5, 6, 7, 8, 9] : List Nat) := by
  obtain ⟨mth, path, key, q, b⟩ := req
  cases mth <;>
    by_cases h1 : patMatches (.exact ["api", "products"]) path = true <;>
    by_cases h2 : patMatches (.exact ["api", "products", "search"]) path = true <;>
    by_cases h3 : patMatches (.param ["api", "products"]) path = true <;>
    by_cases h4 : patMatches (.exact ["api", "products", "stats"]) path = true <;>
    simp_all +decide [appLayers, matchingIndices, matchesRoute]

/-- C2.  Route resolution is first-registered-wins: whenever the dispatcher
runs a registration (stack index `j`), that registration matches the
request, no earlier matching registration exists, and `j` is never one of
the six later duplicate registrations (stack indices 11 to 16) — they are
dead code for every request and every store. -/
theorem c2_first_registration_wins (s : Store) (req : Request) (o : Outcome) (j : Nat)
    (h : dispatch s req = (o, some j)) :
    j ∈ matchingIndices appLayers req 0 ∧
    (∀ k ∈ matchingIndices appLayers req 0, j ≤ k) ∧
    j ∉ ([11, 12, 13, 14, 15, 16] : List Nat) := by
  have hh := dispatchAux_first_match appLayers s req 0 o j h
  have hm := matchingIndices_head_min appLayers req 0 j hh
  have hl := live_routes_only req j hh
  refine ⟨hm.1, hm.2, ?_⟩
  intro hdead
  simp only [List.mem_cons, List.mem_singleton, List.not_mem_nil, or_false] at hl hdead
  omega

/-- C2 witness: a keyless `GET /api/products` fires the first-registered
list route at stack index 3, which matches, precedes every other matching
registration, and is not one of the dead duplicates. -/
theorem c2_first_registration_wins_witness :
    3 ∈ matchingIndices appLayers ⟨.GET, ["api", "products"], none, {}, {}⟩ 0 ∧
    (∀ k ∈ matchingIndices appLayers ⟨.GET, ["api", "products"], none, {}, {}⟩ 0, 3 ≤ k) ∧
    3 ∉ ([11, 12, 13, 14, 15, 16] : List Nat) :=
  c2_first_registration_wins initialProducts ⟨.GET, ["api", "products"], none, {}, {}⟩
    (.res ⟨200, .listPage 1 2 3 5 (initialProducts.take 2)⟩ initialProducts) 3 (by decide)

/-- A request matching no registration is handled by the middleware layers
alone, in order. -/
theorem dispatchAux_no_route :
    ∀ (layers : List Layer) (s : Store) (req : Request) (i : Nat),
      matchingIndices layers req i = [] →
      dispatchAux layers s req i = (midFold layers s req, none) := by
  intro layers
  induction layers with
  | nil => intro s req i _; rfl
  | cons l rest ih =>
      intro s req i h
      cases l with
      | mid m =>
          rw [matchingIndices] at h
          simp only [matchesRoute, if_neg] at h
          rw [dispatchAux, midFold]
          cases hm : m s req with
          | pass => exact ih s req (i + 1) h
          | respond r => rfl
          | raise e => rfl
      | route mth pat chain hnd =>
          rw [matchingIndices] at h
          by_cases hg : matchesRoute (.route mth pat chain hnd) req = true
          · rw [if_pos hg] at h; simp at h
          · rw [if_neg hg] at h
            have hg' : ((req.method = mth) && patMatches pat req.path) = false := by
              simpa [matchesRoute] using hg
            rw [dispatchAux, midFold, hg']
            simp only [Bool.false_eq_true, if_false]
            exact ih s req (i + 1) h

/-- C6 (amended).  For a request bearing the configured API key that
matches no registered route, the terminal middleware raises
`NotFoundError` with message Route not found, which the error translator
turns into the 404 error envelope, with the store untouched; and the
translator sends 500 for every untyped failure. -/
theorem c6_unmatched_valid_key_404 (s : Store) (req : Request)
    (hkey : req.apiKey = some validApiKey)
    (hnm : matchingIndices appLayers req 0 = []) :
    dispatch s req =
      (.res ⟨404, .errorEnvelope ("NotFoundError") ("Route not found")⟩ s, none) ∧
    ∀ e : JsError, e.statusCode = none → (errorTranslator e).status = 500 := by
  constructor
  · have hauth : authenticateMid s req = MidResult.pass := by
      simp only [authenticateMid]
      rw [hkey]
      rfl
    have h0 := dispatchAux_no_route appLayers s req 0 hnm
    simp only [dispatch]
    rw [h0]
    simp only [appLayers, midFold, passMid, hauth, notFoundMid]
    rfl
  · intro e he
    simp [errorTranslator, he]

/-- C6 witness: with the valid key, `GET /api/missing` matches no route and
draws the 404 envelope; a plain error with no status code translates
to 500. -/
theorem c6_unmatched_valid_key_404_witness :
    matchingIndices appLayers ⟨.GET, ["api", "missing"], some validApiKey, {}, {}⟩ 0 = [] ∧
    dispatch initialProducts ⟨.GET, ["api", "missing"], some validApiKey, {}, {}⟩ =
      (.res ⟨404, .errorEnvelope ("NotFoundError") ("Route not found")⟩ initialProducts,
        none) ∧
    (errorTranslator ⟨"TypeError", "boom", none⟩).status = 500 := by
  have h := c6_unmatched_valid_key_404 initialProducts
    ⟨.GET, ["api", "missing"], some validApiKey, {}, {}⟩ rfl (by decide)
  exact ⟨by decide, h.1, h.2 ⟨"TypeError", "boom", none⟩ rfl⟩

/-- The id list of a catalog ending in record `q` ends in `q.id`. -/
theorem storeIds_getLast? (s : Store) :
    (storeIds s).getLast? = s.getLast?.map Product.id := by
  induction s with
  | nil => rfl
  | cons a t ih =>
      cases t with
      | nil => rfl
      | cons b t' =>
          rw [storeIds, List.map_cons, List.map_cons, List.getLast?_cons_cons]
          simpa [storeIds, List.map_cons] using ih

/-- In a catalog whose ids increase along the list, every id is below the
id the next create would assign. -/
theorem nextId_gt :
    ∀ (s : Store), List.Chain' (fun a b => a < b) (storeIds s) →
      ∀ p ∈ s, p.id < nextId s := by
  intro s
  induction s with
  | nil => intro _ p hp; simp at hp
  | cons a t ih =>
      intro hc p hp
      cases t with
      | nil =>
          rcases List.mem_singleton.mp hp with rfl
          simp [nextId, List.getLast?]
      | cons b t' =>
          have hc' : List.Chain' (fun a b => a < b) (storeIds (b :: t')) ∧ a.id < b.id := by
            have := (List.chain'_cons).mp (by simpa [storeIds] using hc)
            exact ⟨this.2, this.1⟩
          have hnext : nextId (a :: b :: t') = nextId (b :: t') := by
            simp [nextId, List.getLast?_cons_cons]
          rcases List.mem_cons.mp hp with rfl | hp'
          · have hb := ih hc'.1 b (List.mem_cons_self b t')
            rw [hnext]
            exact lt_trans hc'.2 hb
          · rw [hnext]
            exact ih hc'.1 p hp'

/-- A create appends a record carrying the assigned id. -/
theorem create_store (b : Body) (s : Store) :
    (createHandler b s).store =
      s ++ [⟨nextId s, b.name, b.description, b.price, b.category, b.inStock⟩] := rfl

/-- Creating preserves the increasing-id invariant: the appended id
exceeds the last (and hence every) existing id. -/
theorem chain_create (b : Body) (s : Store)
    (h : List.Chain' (fun a b => a < b) (storeIds s)) :
    List.Chain' (fun a b => a < b) (storeIds ((createHandler b s).store)) := by
  rw [create_store, storeIds, List.map_append]
  refine List.chain'_append.mpr ⟨h, by simp, ?_⟩
  intro x hx y hy
  simp only [List.map_cons, List.map_nil, List.head?_cons, Option.mem_def,
    Option.some_inj] at hy
  rw [← storeIds] at hx
  rw [storeIds_getLast?] at hx
  cases hlast : s.getLast? with
  | none => rw [hlast] at hx; simp at hx
  | some q =>
      rw [hlast] at hx
      simp only [Option.map_some', Option.mem_def, Option.some_inj] at hx
      subst hx
      subst hy
      simp [nextId, hlast]

/-- Removing a record keeps the remaining catalog a sublist. -/
theorem removeFirst_sublist (f : Product → Bool) :
    ∀ (s : Store) (p : Product) (s' : Store),
      removeFirst f s = some (p, s') → s'.Sublist s := by
  intro s
  induction s with
  | nil => intro p s' h; simp [removeFirst] at h
  | cons a t ih =>
      intro p s' h
      rw [removeFirst] at h
      by_cases hf : f a = true
      · rw [if_pos hf] at h
        obtain ⟨rfl, rfl⟩ : a = p ∧ t = s' := by
          constructor <;> simp_all
        exact List.sublist_cons_self a t
      · rw [if_neg hf] at h
        cases hr : removeFirst f t with
        | none => rw [hr] at h; simp at h
        | some r =>
            rw [hr] at h
            obtain ⟨q, t'⟩ := r
            simp only [Option.map_some', Option.some_inj] at h
            have hs' : s' = a :: t' := by
              have := congrArg Prod.snd h
              simpa using this.symm
            subst hs'
            exact List.Sublist.cons₂ a (ih q t' hr)

/-- Deleting preserves the increasing-id invariant. -/
theorem chain_delete (seg : String) (s : Store)
    (h : List.Chain' (fun a b => a < b) (storeIds s)) :
    List.Chain' (fun a b => a < b) (storeIds ((deleteHandler seg s).store)) := by
  cases hseg : jsParseInt seg with
  | none => simpa [deleteHandler, hseg] using h
  | some n =>
      cases hr : removeFirst (fun p => p.id = n) s with
      | none => simpa [deleteHandler, hseg, hr] using h
      | some r =>
          obtain ⟨p, s'⟩ := r
          have hsub := removeFirst_sublist (fun p => p.id = n) s p s' hr
          have hsubm : (storeIds s').Sublist (storeIds s) := List.Sublist.map Product.id hsub
          have hst : (deleteHandler seg s).store = s' := by
            simp [deleteHandler, hseg, hr, HandlerResult.store]
          rw [hst]
          exact h.sublist hsubm

/-- Replacing the first record of a given id by a record with that same id
leaves the id list untouched. -/
theorem replaceFirst_ids (n : Int) (p' : Product) (hid : p'.id = n) :
    ∀ (s : Store), storeIds (replaceFirst (fun q => q.id = n) p' s) = storeIds s := by
  intro s
  induction s with
  | nil => rfl
  | cons a t ih =>
      rw [replaceFirst]
      by_cases ha : (fun q => decide (q.id = n)) a = true
      · rw [if_pos ha]
        have : a.id = n := by simpa using ha
        simp [storeIds, hid, this]
      · rw [if_neg ha]
        simp only [storeIds, List.map_cons]
        rw [← storeIds, ← storeIds, ih]

/-- Updating preserves the increasing-id invariant: the overlay never
touches the id. -/
theorem chain_update (seg : String) (b : Body) (s : Store)
    (h : List.Chain' (fun a b => a < b) (storeIds s)) :
    List.Chain' (fun a b => a < b) (storeIds ((updateHandler seg b s).store)) := by
  cases hseg : jsParseInt seg with
  | none => simpa [updateHandler, hseg] using h
  | some n =>
      cases hf : s.find? (fun p => p.id = n) with
      | none => simpa [updateHandler, hseg, hf] using h
      | some p =>
          have hp : p.id = n := by
            have := List.find?_some hf
            simpa using this
          have hover : (overlay p b).id = n := by
            simpa [overlay] using hp
          have hst : (updateHandler seg b s).store =
              replaceFirst (fun q => q.id = n) (overlay p b) s := by
            simp [updateHandler, hseg, hf, HandlerResult.store]
          rw [hst, replaceFirst_ids n (overlay p b) hover s]
          exact h

/-- Every store reachable from the initial catalog through the live
create, delete and update handlers keeps its ids strictly increasing
along the list. -/
theorem runOps_chain :
    ∀ (ops : List Op) (s : Store), List.Chain' (fun a b => a < b) (storeIds s) →
      List.Chain' (fun a b => a < b) (storeIds (runOps s ops).1) := by
  intro ops
  induction ops with
  | nil => intro s h; exact h
  | cons o t ih =>
      intro s h
      rw [runOps]
      refine ih _ ?_
      cases o with
      | create b => exact chain_create b s h
      | del seg => exact chain_delete seg s h
      | update seg b => exact chain_update seg b s h

/-- C5 (amended).  Against every store reachable from the initial catalog
by live create, delete and update operations, a create assigns exactly
`nextId` of that store, and this id is strictly greater than every id
currently stored (hence than the maximum).  The claim's further clause —
strictly greater than every id ever assigned before — fails: deleting the
newest record frees its id for reuse, as the counterexample shows. -/
theorem c5_create_id_exceeds_existing (ops : List Op) (b : Body) (p : Product)
    (hp : p ∈ (runOps initialProducts ops).1) :
    (applyOp ((runOps initialProducts ops).1) (.create b)).2 =
      some (nextId ((runOps initialProducts ops).1)) ∧
    p.id < nextId ((runOps initialProducts ops).1) := by
  refine ⟨rfl, ?_⟩
  refine nextId_gt _ (runOps_chain ops initialProducts ?_) p hp
  norm_num [initialProducts, storeIds, List.chain'_cons]

/-- C5 witness: on the untouched initial catalog, record 5 is present and
the id a create assigns, 6, exceeds its id. -/
theorem c5_create_id_exceeds_existing_witness :
    (⟨5, .str "Monitor", .str "27-inch display", .num (mkRat 349999 100),
        .str "Electronics", .bool true⟩ : Product) ∈ (runOps initialProducts []).1 ∧
    (applyOp ((runOps initialProducts []).1) (.create penBody)).2 =
      some (nextId ((runOps initialProducts []).1)) ∧
    (5 : Int) < nextId ((runOps initialProducts []).1) :=
  ⟨by decide,
    c5_create_id_exceeds_existing [] penBody
      ⟨5, .str "Monitor", .str "27-inch display", .num (mkRat 349999 100),
        .str "Electronics", .bool true⟩ (by decide)⟩

/-- The executable ceiling of Batteries agrees with the mathematical
ceiling. -/
theorem ratCeil_eq (q : ℚ) : Rat.ceil q = Int.ceil q := by
  by_cases hden : q.den = 1
  · have hq : ((q.num : ℚ)) = q := by
      conv_rhs => rw [← Rat.num_div_den q]
      rw [hden]
      simp
    have hc : Rat.ceil q = q.num := by
      unfold Rat.ceil
      rw [if_pos hden]
    have hic : Int.ceil q = q.num := by
      conv_lhs => rw [← hq]
      exact Int.ceil_intCast q.num
    rw [hc, hic]
  · have hceil : Rat.ceil q = q.num / (q.den : Int) + 1 := by
      unfold Rat.ceil
      rw [if_neg hden]
    have hfloor : Int.floor q = q.num / (q.den : Int) := Rat.floor_def
    rw [hceil, ← hfloor]
    have h1 : Int.ceil q ≤ Int.floor q + 1 := by
      rw [Int.ceil_le]
      push_cast
      exact le_of_lt (Int.lt_floor_add_one q)
    have h2 : Int.floor q < Int.ceil q := by
      by_contra hle
      push_neg at hle
      have hqf : q ≤ ((Int.floor q : ℚ)) :=
        le_trans (Int.le_ceil q) (by exact_mod_cast hle)
      have heq : q = ((Int.floor q : ℚ)) := le_antisymm hqf (Int.floor_le q)
      have hd1 : q.den = 1 := by rw [heq]; exact Rat.den_intCast _
      exact hden hd1
    omega

/-- Mathematical ceiling of a nonnegative numerator over a positive
denominator, as the classical integer formula. -/
theorem ceil_pos_div (n k : Nat) (hk : 0 < k) :
    Int.ceil ((n : ℚ) / (k : ℚ)) = (((n + k - 1) / k : Nat) : Int) := by
  have hkq : (0 : ℚ) < (k : ℚ) := by exact_mod_cast hk
  rw [Int.ceil_eq_iff]
  obtain ⟨j, hj1, hj2⟩ : ∃ j, n + k - 1 = j ∧ j + 1 = n + k := ⟨n + k - 1, rfl, by omega⟩
  rw [hj1]
  have hq := Nat.div_add_mod j k
  have hr : j % k < k := Nat.mod_lt _ hk
  have hcomm : (j / k) * k = k * (j / k) := Nat.mul_comm _ _
  have hk1 : (1 : Int) ≤ (k : Int) := by exact_mod_cast hk
  constructor
  · rw [lt_div_iff₀ hkq]
    have hn : (j / k) * k < n + k := by omega
    have hnz : (((j / k : Nat) : Int)) * (k : Int) < (n : Int) + (k : Int) := by
      exact_mod_cast hn
    have hInt : ((((j / k : Nat) : Int)) - 1) * (k : Int) < (n : Int) := by
      have hexp : ((((j / k : Nat) : Int)) - 1) * (k : Int) =
          (((j / k : Nat) : Int)) * (k : Int) - (k : Int) := by ring
      rw [hexp]
      linarith
    exact_mod_cast hInt
  · rw [div_le_iff₀ hkq]
    have hge : n ≤ (j / k) * k := by omega
    have hgez : (n : Int) ≤ (((j / k : Nat) : Int)) * (k : Int) := by exact_mod_cast hge
    exact_mod_cast hgez

/-- Mathematical ceiling of a nonnegative numerator over a negative
denominator: the negated magnitude floor. -/
theorem ceil_neg_div (n : Nat) (d : Int) (hd : d < 0) :
    Int.ceil ((n : ℚ) / (d : ℚ)) = -(((n / d.natAbs : Nat) : Int)) := by
  obtain ⟨m, hm⟩ : ∃ m : Nat, (m : Int) = -d := ⟨d.natAbs, by omega⟩
  have hmabs : d.natAbs = m := by omega
  rw [hmabs]
  have hdq : (d : ℚ) = -((m : ℚ)) := by
    have h3 : ((m : ℚ)) = -((d : ℚ)) := by exact_mod_cast hm
    linarith
  rw [hdq, div_neg, Int.ceil_neg]
  congr 1
  exact_mod_cast Rat.floor_natCast_div_natCast n m

/-- The code's `Math.ceil(length / limit)` equals the specification's
integer ceiling formula whenever the limit is nonzero. -/
theorem jsCeilDiv_eq (n : Nat) (d : Int) (hd : d ≠ 0) :
    jsCeilDiv (n : Int) d = intCeilDiv n d := by
  rw [jsCeilDiv, ratCeil_eq, Rat.divInt_eq_div, intCeilDiv]
  rcases lt_or_gt_of_ne hd with hneg | hpos
  · rw [if_neg (not_lt.mpr (le_of_lt hneg))]
    have : (((n : Int) : ℚ)) = ((n : ℚ)) := by push_cast; rfl
    rw [this]
    exact ceil_neg_div n d hneg
  · rw [if_pos hpos]
    have hdq : ((d : ℚ)) = ((d.toNat : ℚ)) := by
      rw [← Int.toNat_of_nonneg (le_of_lt hpos)]
      push_cast
      rfl
    have hnq : (((n : Int) : ℚ)) = ((n : ℚ)) := by push_cast; rfl
    rw [hdq, hnq]
    exact ceil_pos_div n d.toNat (by omega)

/-- The falsy-fallback coercion of the code equals the amended
specification coercion. -/
theorem jsOrDefault_eq_amended (o : Option String) (d : Int) :
    jsOrDefault (parseIntOpt o) d = amendedToInt o d := by
  cases hp : parseIntOpt o with
  | none => simp [jsOrDefault, amendedToInt, hp]
  | some m =>
      by_cases hm : m = 0 <;> simp [jsOrDefault, amendedToInt, hp, hm]

/-- The amended coercion never returns 0 when its default is nonzero. -/
theorem amendedToInt_ne_zero (o : Option String) (d : Int) (hd : d ≠ 0) :
    amendedToInt o d ≠ 0 := by
  rw [amendedToInt]
  split_ifs with h
  · exact hd
  · push_neg at h
    cases hp : parseIntOpt o with
    | none => exact absurd hp h.1
    | some m =>
        simp only [hp, Option.getD_some]
        intro hm0
        exact h.2 (by rw [hp, hm0])

/-- C7 (amended).  For every list request whose category parameter is
falsy (absent or empty, skipping the filter) or whose catalog has
string-valued categories, the handler answers 200 with: page and limit
coerced by `parseInt` where a missing, non-numeric or zero-parsing value
falls back to the defaults 1 and 2; the set filtered case-insensitively
only when the category parameter is truthy; `totalPages` the integer
ceiling of `totalItems / limit`; and the slice
`[(page-1)*limit, page*limit)` of that set in JS slice semantics. -/
theorem c7_list_pagination (q : Query) (store : Store)
    (hcat : q.category.getD "" = "" ∨ store.all (fun p => p.category.isStr) = true) :
    listHandler q store = .ok (c7AmendedResponse q store) store := by
  have hresp : ∀ results : List Product,
      listHandler.listPageResponse q results =
        ⟨200, .listPage (amendedToInt q.page 1) (amendedToInt q.limit 2)
          (intCeilDiv results.length (amendedToInt q.limit 2)) results.length
          (jsSlice results ((amendedToInt q.page 1 - 1) * amendedToInt q.limit 2)
            (amendedToInt q.page 1 * amendedToInt q.limit 2))⟩ := by
    intro results
    rw [listHandler.listPageResponse]
    rw [jsOrDefault_eq_amended, jsOrDefault_eq_amended]
    have harith : (amendedToInt q.page 1 - 1) * amendedToInt q.limit 2 +
        amendedToInt q.limit 2 = amendedToInt q.page 1 * amendedToInt q.limit 2 := by
      ring
    rw [harith]
    rw [jsCeilDiv_eq results.length (amendedToInt q.limit 2)
      (amendedToInt_ne_zero q.limit 2 (by norm_num))]
  cases hc : q.category with
  | none =>
      simp only [listHandler, hc, c7AmendedResponse, truthyFilteredSet]
      rw [hresp store]
  | some c =>
      by_cases hce : c = ""
      · subst hce
        simp only [listHandler, hc, c7AmendedResponse, truthyFilteredSet, if_true]
        rw [hresp store]
      · have hall : store.all (fun p => p.category.isStr) = true := by
          rcases hcat with h | h
          · rw [hc] at h; exact absurd h hce
          · exact h
        simp only [listHandler, hc, c7AmendedResponse, truthyFilteredSet]
        rw [if_neg hce, if_pos hall, if_neg hce, hresp]

/-- C7 witness: `GET /api/products?category=electronics&page=2&limit=2`
against the initial catalog satisfies the string-category hypothesis and
equals the amended response (second page of the three Electronics
records). -/
theorem c7_list_pagination_witness :
    initialProducts.all (fun p => p.category.isStr) = true ∧
    listHandler { category := some ("electronics"), page := some ("2"), limit := some ("2") } initialProducts =
      .ok (c7AmendedResponse { category := some ("electronics"), page := some ("2"), limit := some ("2") } initialProducts) initialProducts :=
  ⟨by decide,
    c7_list_pagination
      { category := some ("electronics"), page := some ("2"), limit := some ("2") }
      initialProducts (Or.inr (by decide))⟩

/-- C8 (amended).  Against every catalog of string-valued names, the search
handler raises the `ValidationError` exactly when the `name` parameter is
absent or empty (both falsy), raises the `NotFoundError` on zero
case-insensitive substring matches, and otherwise answers 200 with the
matches and a count equal to the number of matching records. -/
theorem c8_search (q : Query) (store : Store)
    (hnames : store.all (fun p => p.name.isStr) = true) :
    searchHandler q store = c8AmendedResult q store := by
  cases hn : q.name with
  | none => simp [searchHandler, c8AmendedResult, hn]
  | some n =>
      by_cases hne : n = ""
      · simp [searchHandler, c8AmendedResult, hn, hne]
      · simp [searchHandler, c8AmendedResult, hn, hne, hnames, searchMatches,
          List.countP_eq_length_filter, List.isEmpty_iff, List.length_eq_zero]

/-- C8 witness: searching for "lap" against the initial catalog (whose
names are all strings) matches exactly the Laptop record with count 1. -/
theorem c8_search_witness :
    initialProducts.all (fun p => p.name.isStr) = true ∧
    searchHandler { name := some ("lap") } initialProducts =
      c8AmendedResult { name := some ("lap") } initialProducts :=
  ⟨by decide, c8_search { name := some ("lap") } initialProducts (by decide)⟩

/-- Finding over a split list whose head part misses lands on the split
element. -/
theorem find?_split (f : Product → Bool) (p : Product) :
    ∀ (pre post : List Product), (∀ q ∈ pre, f q = false) → f p = true →
      (pre ++ p :: post).find? f = some p := by
  intro pre
  induction pre with
  | nil =>
      intro post _ hp
      simp [List.find?_cons, hp]
  | cons a t ih =>
      intro post hpre hp
      have ha : f a = false := hpre a (List.mem_cons_self a t)
      rw [List.cons_append, List.find?_cons_of_neg _ (by simp [ha])]
      exact ih post (fun q hq => hpre q (List.mem_cons_of_mem a hq)) hp

/-- Replacing over a split list whose head part misses replaces the split
element. -/
theorem replaceFirst_split (f : Product → Bool) (p p' : Product) :
    ∀ (pre post : List Product), (∀ q ∈ pre, f q = false) → f p = true →
      replaceFirst f p' (pre ++ p :: post) = pre ++ p' :: post := by
  intro pre
  induction pre with
  | nil =>
      intro post _ hp
      rw [List.nil_append, replaceFirst, if_pos hp, List.nil_append]
  | cons a t ih =>
      intro post hpre hp
      have ha : f a = false := hpre a (List.mem_cons_self a t)
      rw [List.cons_append, replaceFirst, if_neg (by simp [ha]), List.cons_append]
      rw [ih post (fun q hq => hpre q (List.mem_cons_of_mem a hq)) hp]

/-- C9.  The live PUT handler is a partial update: when no stored record
carries the parsed id (or the segment parses to NaN) it answers 404 and
returns the store untouched; when the first record with the id sits
between `pre` and `post`, it answers 200 with the overlaid record and only
that record changes — and the overlay keeps the id, overwrites exactly the
non-nullish body fields, and keeps the prior value of every absent or
null field. -/
theorem c9_update_overlay (store : Store) (seg : String) (b : Body) :
    ((∀ p ∈ store, some p.id ≠ jsParseInt seg) →
      updateHandler seg b store = .ok ⟨404, .messageOnly ("Product not found")⟩ store) ∧
    (∀ (pid : Int) (pre post : List Product) (p : Product),
      jsParseInt seg = some pid → store = pre ++ p :: post → p.id = pid →
      (∀ q ∈ pre, q.id ≠ pid) →
      updateHandler seg b store =
        .ok ⟨200, .product (overlay p b)⟩ (pre ++ overlay p b :: post) ∧
      (overlay p b).id = p.id ∧
      (overlay p b).name = (if b.name.isNullish then p.name else b.name) ∧
      (overlay p b).description =
        (if b.description.isNullish then p.description else b.description) ∧
      (overlay p b).price = (if b.price.isNullish then p.price else b.price) ∧
      (overlay p b).category = (if b.category.isNullish then p.category else b.category) ∧
      (overlay p b).inStock = (if b.inStock.isNullish then p.inStock else b.inStock)) := by
  constructor
  · intro hmiss
    cases hseg : jsParseInt seg with
    | none => simp [updateHandler, hseg]
    | some n =>
        have hfind : store.find? (fun p => p.id = n) = none := by
          rw [List.find?_eq_none]
          intro x hx
          have := hmiss x hx
          rw [hseg] at this
          simp only [ne_eq, Option.some_inj] at this
          simpa using this
        simp [updateHandler, hseg, hfind]
  · intro pid pre post p hseg hsplit hpid hpre
    have hfind : store.find? (fun q => q.id = pid) = some p := by
      rw [hsplit]
      refine find?_split _ p pre post ?_ (by simpa using hpid)
      intro q hq
      simpa using hpre q hq
    have hrepl : replaceFirst (fun q => q.id = pid) (overlay p b) store =
        pre ++ overlay p b :: post := by
      rw [hsplit]
      refine replaceFirst_split _ p (overlay p b) pre post ?_ (by simpa using hpid)
      intro q hq
      simpa using hpre q hq
    refine ⟨?_, rfl, rfl, rfl, rfl, rfl, rfl⟩
    simp [updateHandler, hseg, hfind, hrepl]

/-- C9 witness: `PUT /api/products/1` with body `{price: 999}` overlays
only the price of the Laptop record, keeps its id, name, description,
category and stock flag, and leaves the other records in place. -/
theorem c9_update_overlay_witness :
    updateHandler ("1") { price := .num 999 } initialProducts =
      .ok ⟨200, .product (overlay ⟨1, .str "Laptop", .str "15-inch screen",
          .num (mkRat 1899999 100), .str "Electronics", .bool true⟩ { price := .num 999 })⟩
        ([] ++ overlay ⟨1, .str "Laptop", .str "15-inch screen",
          .num (mkRat 1899999 100), .str "Electronics", .bool true⟩ { price := .num 999 } ::
            initialProducts.drop 1) ∧
    (overlay ⟨1, .str "Laptop", .str "15-inch screen", .num (mkRat 1899999 100),
        .str "Electronics", .bool true⟩ { price := .num 999 }).id = 1 ∧
    (overlay ⟨1, .str "Laptop", .str "15-inch screen", .num (mkRat 1899999 100),
        .str "Electronics", .bool true⟩ { price := .num 999 }).price = .num 999 := by
  have h := (c9_update_overlay initialProducts ("1") { price := .num 999 }).2 1 []
    (initialProducts.drop 1)
    ⟨1, .str "Laptop", .str "15-inch screen", .num (mkRat 1899999 100),
      .str "Electronics", .bool true⟩ (by decide) (by decide) (by decide) (by decide)
  exact ⟨h.1, h.2.1, by decide⟩

/-- C10 (amended).  The live get-by-id handler parses the segment with JS
`parseInt` (leading whitespace skipped, optional sign, hexadecimal `0x`
form, else the longest decimal digit run): a NaN parse or an id matching
no record answers 404 `{message: Product not found}`, a found record is
answered 200; the handler never raises and never changes the store. -/
theorem c10_get_by_id (seg : String) (store : Store) :
    (∀ (e : JsError) (s' : Store), getByIdHandler seg store ≠ .err e s') ∧
    (getByIdHandler seg store).store = store ∧
    (jsParseInt seg = none →
      getByIdHandler seg store = .ok ⟨404, .messageOnly ("Product not found")⟩ store) ∧
    (∀ n : Int, jsParseInt seg = some n →
      (store.find? (fun p => p.id = n) = none →
        getByIdHandler seg store = .ok ⟨404, .messageOnly ("Product not found")⟩ store) ∧
      (∀ p : Product, store.find? (fun p => p.id = n) = some p →
        getByIdHandler seg store = .ok ⟨200, .product p⟩ store)) := by
  refine ⟨?_, ?_, ?_, ?_⟩
  · intro e s'
    cases hseg : jsParseInt seg with
    | none => simp [getByIdHandler, hseg]
    | some n =>
        cases hf : store.find? (fun p => p.id = n) with
        | none => simp [getByIdHandler, hseg, hf]
        | some p => simp [getByIdHandler, hseg, hf]
  · cases hseg : jsParseInt seg with
    | none => simp [getByIdHandler, hseg, HandlerResult.store]
    | some n =>
        cases hf : store.find? (fun p => p.id = n) with
        | none => simp [getByIdHandler, hseg, hf, HandlerResult.store]
        | some p => simp [getByIdHandler, hseg, hf, HandlerResult.store]
  · intro hseg
    simp [getByIdHandler, hseg]
  · intro n hseg
    constructor
    · intro hf
      simp [getByIdHandler, hseg, hf]
    · intro p hf
      simp [getByIdHandler, hseg, hf]

/-- C10 witness: the segment "7abc" parses to 7, which matches no record of
the initial catalog, so the handler answers the 404 message body. -/
theorem c10_get_by_id_witness :
    jsParseInt ("7abc") = some 7 ∧
    getByIdHandler ("7abc") initialProducts =
      .ok ⟨404, .messageOnly ("Product not found")⟩ initialProducts :=
  ⟨by decide,
    ((c10_get_by_id ("7abc") initialProducts).2.2.2 7 (by decide)).1 (by decide)⟩

/-- C10 counterexample.  The segment " 3" (an encoded leading space) has no
decimal-digit run at its first character, so the claim's decimal-prefix
parse predicts a 404; `parseInt` skips the whitespace and the code returns
record 3. -/
theorem c10_counterexample :
    getByIdHandler (" 3") initialProducts =
      .ok ⟨200, .product ⟨3, .str "Keyboard", .str "Mechanical RGB keyboard",
        .num (mkRat 129999 100), .str "Accessories", .bool true⟩⟩ initialProducts ∧
    c10ClaimResult (" 3") initialProducts =
      .ok ⟨404, .messageOnly ("Product not found")⟩ initialProducts ∧
    getByIdHandler (" 3") initialProducts ≠ c10ClaimResult (" 3") initialProducts := by
  refine ⟨by decide, by decide, by decide⟩

end ProductApi
